import Mathlib

/-!
Shallow embedding of `src/server/netconf_server.c` (netopeer2 ietf-netconf-server
callbacks) and verification of its specification claims.

External collaborators (sysrepo, libnetconf2, libssh, libyang, the system account
database) are modelled at their interface: each handler receives the sequence of
change events its iterator would deliver, together with the outcome every
collaborator call would have (success / failure flags carried by the events or by
an environment record).  Machine integers are Nat with explicit wrap-around where
the C type forces one (the `uint8_t` key index, 32-bit `int` bitmasks).  C
null-pointer dereference / undefined behaviour is modelled by an explicit `crash`
outcome, never by a default value.
-/

namespace NetconfServer

/-- sysrepo change operation (`sr_change_oper_t`). -/
inductive SrOp
  | created
  | modified
  | deleted
  | moved
  deriving DecidableEq, Repr

/-- sysrepo return codes, abstracted: `ok` is `SR_ERR_OK`, `notFound` is
`SR_ERR_NOT_FOUND` (the exhausted-iterator sentinel), `nomem` is `SR_ERR_NOMEM`,
`internal` is `SR_ERR_INTERNAL`, `err n` stands for any other concrete code. -/
inductive SrErr
  | ok
  | nomem
  | notFound
  | internal
  | err (code : Nat)
  deriving DecidableEq, Repr

/-! ## Authentication-method bitmask (np2srv_ssh_update_auth_method)

libnetconf2 auth-method bits, values from `nc_server.h`. -/

def NC_SSH_AUTH_PUBLICKEY : Nat := 1

def NC_SSH_AUTH_PASSWORD : Nat := 2

def NC_SSH_AUTH_INTERACTIVE : Nat := 4

/-- C `auth &= ~bit` on a 32-bit `int` holding a non-negative mask. -/
def clearBit (m b : Nat) : Nat := m &&& ((2 ^ 32 - 1) ^^^ b)

/-- A leaf change-event node as the handlers see it: the schema node name and the
leaf's canonical string value (`value_str`). -/
structure LeafNode where
  schemaName : String
  valueStr : String
  deriving DecidableEq, Repr

/-- Embedding of `np2srv_ssh_update_auth_method` (netconf_server.c:409-445).
The `strcmp` chain is reproduced literally, including the misspelled literal
`"passsword"` in the source's second branch. -/
def np2srv_ssh_update_auth_method (node : LeafNode) (op : SrOp) (curAuth : Nat) : Nat :=
  if node.schemaName = "publickey" then
    if op = .created then curAuth ||| NC_SSH_AUTH_PUBLICKEY
    else if op = .deleted then clearBit curAuth NC_SSH_AUTH_PUBLICKEY
    else curAuth
  else if node.schemaName = "passsword" then
    if op = .created then curAuth ||| NC_SSH_AUTH_PASSWORD
    else if op = .deleted then clearBit curAuth NC_SSH_AUTH_PASSWORD
    else curAuth
  else if node.schemaName = "hostbased" ∨ node.schemaName = "none" then
    curAuth
  else if node.schemaName = "other" then
    if node.valueStr = "interactive" then
      if op = .created then curAuth ||| NC_SSH_AUTH_INTERACTIVE
      else if op = .deleted then clearBit curAuth NC_SSH_AUTH_INTERACTIVE
      else curAuth
    else curAuth
  else curAuth

/-- Folding the reconciler over a whole sequence of flag events (as the
auth-methods callbacks do, re-reading and writing the mask per event). -/
def updateAuthMethodFold (events : List (LeafNode × SrOp)) (initAuth : Nat) : Nat :=
  events.foldl (fun m e => np2srv_ssh_update_auth_method e.1 e.2 m) initAuth

/-! ## Listen idle-timeout handler (np2srv_idle_timeout_cb)

netconf_server.c:158-188.  The loop body only reacts to `SR_OP_CREATED` and
`SR_OP_MODIFIED` (`/* ignore other operations */`); `nc_server_set_idle_timeout`
returns void, so no mutation can fail.  The handler's effect on the live idle
timeout value is a fold over the delivered events. -/

/-- One event for the idle-timeout leaf: the operation and the leaf's `uint16`
value (`value.uint16`). -/
structure IdleTimeoutEvent where
  op : SrOp
  value : Nat
  deriving DecidableEq, Repr

/-- Live idle-timeout state after `np2srv_idle_timeout_cb` processes `events`,
starting from live value `st`. -/
def np2srv_idle_timeout_cb (events : List IdleTimeoutEvent) (st : Nat) : Nat :=
  events.foldl
    (fun s e => if e.op = .created ∨ e.op = .modified then e.value % 2 ^ 16 else s) st

/-! ## SSH auth max-wait / max-attempts handler (np2srv_endpt_ssh_keepalives_cb)

netconf_server.c:496-552 (the same per-leaf logic appears in
`np2srv_ch_endpt_ssh_keepalives_cb`, lines 962-1021).  On `SR_OP_DELETED` the
schema default is pushed (`max-wait` → 30, `max-attempts` → 3); any other
operation pushes the leaf's numeric value. -/

/-- The live per-endpoint SSH authentication parameters touched by the handler. -/
structure SshAuthParams where
  authTimeout : Nat
  authAttempts : Nat
  deriving DecidableEq, Repr

/-- One event under the ssh-server-parameters `keepalives` container: schema node
name, operation and numeric value (`uint16` for max-wait, `uint8` for
max-attempts). -/
structure AuthParamEvent where
  schemaName : String
  op : SrOp
  value : Nat
  deriving DecidableEq, Repr

/-- Loop body of `np2srv_endpt_ssh_keepalives_cb` for one event
(netconf_server.c:524-538). -/
def sshKeepalivesApply (st : SshAuthParams) (e : AuthParamEvent) : SshAuthParams :=
  if e.schemaName = "max-wait" then
    if e.op = .deleted then { st with authTimeout := 30 }
    else { st with authTimeout := e.value % 2 ^ 16 }
  else if e.schemaName = "max-attempts" then
    if e.op = .deleted then { st with authAttempts := 3 }
    else { st with authAttempts := e.value % 2 ^ 8 }
  else st

/-- Live state after `np2srv_endpt_ssh_keepalives_cb` drains its iterator
(assuming every setter succeeds, the case the default-restoration claim is
about). -/
def np2srv_endpt_ssh_keepalives_cb (events : List AuthParamEvent)
    (st : SshAuthParams) : SshAuthParams :=
  events.foldl sshKeepalivesApply st

/-! ## Public-key authentication decision (np2srv_pubkey_auth_cb)

netconf_server.c:105-155.  Collaborator outcomes are part of the environment:
`pwdLookup` is the `getpwnam` result (the home directory when found), `pathAlloc`
the `asprintf` success, `fileKeys` the (public material of the) keys stored in the
account's `authorized_keys` file in file order, and `importOk` whether
`ssh_pki_import_pubkey_file` succeeds on that file — the import reads only the
file's first key. -/

structure PubkeyAuthEnv where
  pwdLookup : Option String
  pathAlloc : Bool
  fileKeys : List String
  importOk : Bool
  deriving DecidableEq, Repr

/-- The key `ssh_pki_import_pubkey_file` yields: the first key of the file, when
the import succeeds at all. -/
def importedPubkey (env : PubkeyAuthEnv) : Option String :=
  if env.importOk then env.fileKeys.head? else none

/-- Embedding of `np2srv_pubkey_auth_cb`: returns 0 (accept) or 1 (reject).
`offered` is the public material of the key the client presented
(`ssh_key_cmp .. SSH_KEY_CMP_PUBLIC` is byte-for-byte comparison of public
material, modelled as string equality). -/
def np2srv_pubkey_auth_cb (env : PubkeyAuthEnv) (offered : String) : Int :=
  match env.pwdLookup with
  | none => 1
  | some _ =>
    if ¬ env.pathAlloc then 1
    else
      match importedPubkey env with
      | none => 1
      | some k => if k = offered then 0 else 1

/-! ## Synthetic authorized-key entry names (np2srv_user_add_auth_key)

netconf_server.c:554-591: `char name[6]; sprintf(name, "key%d", (*key_idx)++);`
with `uint8_t *key_idx` initialised to 1 per account
(netconf_server.c:638).  The n-th recognized key of an account therefore uses
counter value `n % 256`, and `sprintf` writes `("key" ++ digits).length + 1`
bytes (the trailing NUL) into the 6-byte buffer. -/

/-- The name `sprintf(name, "key%d", idx)` formats for an 8-bit counter value. -/
def authKeyName (idx : Nat) : String := "key" ++ toString (idx % 2 ^ 8)

/-- Bytes the `sprintf` writes into `name[6]`, terminating NUL included. -/
def authKeyNameBytes (idx : Nat) : Nat := (authKeyName idx).length + 1

/-- Counter value used for the n-th (1-based) recognized key of one account:
the `uint8_t` starts at 1 and is post-incremented, wrapping at 256. -/
def keyIdxOfNth (n : Nat) : Nat := n % 2 ^ 8

/-- The `sprintf` stays within `name[6]`'s bounds for the n-th key. -/
def keyNameFits (n : Nat) : Prop := authKeyNameBytes (keyIdxOfNth n) ≤ 6

instance (n : Nat) : Decidable (keyNameFits n) := by
  unfold keyNameFits; infer_instance

/-! ## authorized_keys line parsing (np2srv_endpt_ssh_auth_users_oper_cb)

netconf_server.c:596-695.  Lines are modelled as the `getline` results: character
lists including the terminating newline (no interior NUL).  C string scanning is
embedded literally: `strchr` returns the suffix starting at the first occurrence,
`strncmp(s, lit, n) == 0` is a prefix test that fails when `s` is shorter than
`n` (the terminator differs from `lit`'s character). -/

/-- `strchr(s, c)`: the suffix of `s` starting at the first occurrence of `c`,
or `none`. -/
def strchr (c : Char) : List Char → Option (List Char)
  | [] => none
  | a :: as => if a = c then some (a :: as) else strchr c as

/-- `strncmp(s, pat, pat.length) == 0` for NUL-free strings. -/
def strncmpEq : List Char → List Char → Bool
  | [], _ => true
  | _ :: _, [] => false
  | p :: ps, c :: cs => p = c && strncmpEq ps cs

/-- Does the recognized-algorithm test of the inner `while` succeed at this
position?  (netconf_server.c:646) -/
def isAlgAt (cs : List Char) : Bool :=
  strncmpEq ("ssh-dss".toList) cs || strncmpEq ("ssh-rsa".toList) cs ||
    strncmpEq ("ecdsa".toList) cs

/-- Candidate positions after the current one in the algorithm-search `while`
loop: the loop does `ptr = strchr(ptr, ' '); if (!ptr) break; ++ptr;` and
re-tests, i.e. it tests the suffix following each successive space. -/
def findAlgGo : List Char → Option (List Char)
  | [] => none
  | c :: rest =>
    if c = ' ' then
      if isAlgAt rest then some rest else findAlgGo rest
    else findAlgGo rest

/-- The algorithm-search `while` loop (netconf_server.c:645-652): the first
position — the line start, or the position right after a space — at which a
recognized algorithm token starts; `none` when the spaces run out first. -/
def findAlg (cs : List Char) : Option (List Char) :=
  if isAlgAt cs then some cs else findAlgGo cs

/-- Outcome of parsing one `authorized_keys` line.  `crash` marks the source's
undefined behaviour at netconf_server.c:668: when the key data is followed by no
space, `ptr = strchr(ptr, ' ')` sets `ptr` to NULL and the next conjunct calls
`strchr(NULL, '\n')`. -/
inductive LineParse
  | skip
  | entry (alg keydata : List Char)
  | crash
  deriving DecidableEq, Repr

/-- Per-line body of the `getline` loop (netconf_server.c:639-676). -/
def parseAuthKeyLine (line : List Char) : LineParse :=
  if line = [] ∨ line.head? = some '#' then .skip
  else
    match findAlg line with
    | none => .skip
    | some alg =>
      match strchr ' ' alg with
      | none => .skip
      | some afterAlg =>
        let data := afterAlg.tail
        match strchr ' ' data with
        | none => .crash
        | some dataEnd =>
          .entry (alg.take (alg.length - afterAlg.length))
            (data.take (data.length - dataEnd.length))

/-- One synthesized `authorized-key` list entry (np2srv_user_add_auth_key). -/
structure AuthKeyEntry where
  name : String
  algorithm : List Char
  keyData : List Char
  deriving DecidableEq, Repr

inductive UserKeysResult
  | ok (entries : List AuthKeyEntry)
  | crash
  deriving DecidableEq, Repr

/-- The whole `getline` loop over a file's lines, naming entries `key<idx>` with
the 8-bit counter (allocation failures of the libyang node constructors are out
of this model's scope: they are modelled as succeeding). -/
def parseAuthKeyLines (lines : List (List Char)) (keyIdx : Nat) : UserKeysResult :=
  match lines with
  | [] => .ok []
  | l :: rest =>
    match parseAuthKeyLine l with
    | .skip => parseAuthKeyLines rest keyIdx
    | .crash => .crash
    | .entry alg kd =>
      match parseAuthKeyLines rest ((keyIdx + 1) % 2 ^ 8) with
      | .ok es => .ok (⟨authKeyName keyIdx, alg, kd⟩ :: es)
      | .crash => .crash

/-- Result of `fopen` on one account's `~/.ssh/authorized_keys`
(netconf_server.c:627-635). -/
inductive FileOpenResult
  | missing
  | openError
  | content (lines : List (List Char))
  deriving DecidableEq, Repr

/-- Outcome for one account: its key entries, or failure of the whole
operational callback (`goto cleanup` with `SR_ERR_INTERNAL`). -/
inductive UserAuthKeysOutcome
  | ok (entries : List AuthKeyEntry)
  | fail
  | crash
  deriving DecidableEq, Repr

/-- Per-account behaviour of `np2srv_endpt_ssh_auth_users_oper_cb`: a missing
file (`ENOENT`) yields zero entries and no error, any other open error fails the
whole callback, a readable file is parsed with the key counter starting at 1. -/
def userAuthKeys : FileOpenResult → UserAuthKeysOutcome
  | .missing => .ok []
  | .openError => .fail
  | .content lines =>
    match parseAuthKeyLines lines 1 with
    | .ok es => .ok es
    | .crash => .crash

/-! ## Host-key material resolver (np2srv_hostkey_cb)

netconf_server.c:33-103.  The cleanup label walks `data` to its document root
(`while (data->parent) data = data->parent;`) before freeing; when `data` is
still NULL — `asprintf` failure, `sr_get_subtree` failure, or subtree not found —
that walk dereferences a null pointer.  `crash` models exactly this. -/

inductive NcSshKeyType
  | rsa
  | ecdsa
  deriving DecidableEq, Repr

/-- A child of the fetched `local-definition` subtree: schema node name, identity
name of its identityref value (meaningful for `algorithm`), and `value_str`. -/
structure HostkeyChild where
  name : String
  identName : String
  valueStr : String
  deriving DecidableEq, Repr

/-- Result of `sr_get_subtree` for the host-key xpath. -/
inductive SubtreeFetch
  | fetchErr
  | noData
  | found (children : List HostkeyChild)
  deriving DecidableEq, Repr

structure HostkeyEnv where
  sessionStart : Bool
  xpathAlloc : Bool
  fetch : SubtreeFetch
  strdupOk : Bool
  deriving DecidableEq, Repr

/-- Outcome of the resolver: a normal return carrying `rc` and the produced key
data, or the null-dereference in cleanup. -/
inductive HostkeyOutcome
  | ret (rc : Int) (key : Option (NcSshKeyType × String))
  | crash
  deriving DecidableEq, Repr

/-- netconf_server.c:63-94, reached only with a non-null subtree: `LY_TREE_FOR`
leaves the last matching sibling in `alg`/`privkey` (hence `getLast?` of the
filtered children), the algorithm identity name is prefix-matched with
`strncmp(.., "rsa", 3)` / `strncmp(.., "secp", 4)`, and the private key's
`value_str` is `strdup`ed.  On this path the cleanup label walks real parents
and frees, then returns `rc`. -/
def hostkeyFromChildren (children : List HostkeyChild) (strdupOk : Bool) :
    HostkeyOutcome :=
  match (children.filter (fun c => c.name = "algorithm")).getLast?,
      (children.filter (fun c => c.name = "private-key")).getLast? with
  | some a, some p =>
    if strncmpEq ("rsa".toList) a.identName.toList then
      if strdupOk then .ret 0 (some (.rsa, p.valueStr)) else .ret (-1) none
    else if strncmpEq ("secp".toList) a.identName.toList then
      if strdupOk then .ret 0 (some (.ecdsa, p.valueStr)) else .ret (-1) none
    else .ret (-1) none
  | _, _ => .ret (-1) none

/-- Embedding of `np2srv_hostkey_cb`. -/
def np2srv_hostkey_cb (env : HostkeyEnv) : HostkeyOutcome :=
  if ¬ env.sessionStart then .ret (-1) none
  else if ¬ env.xpathAlloc then .crash
  else
    match env.fetch with
    | .fetchErr => .crash
    | .noData => .crash
    | .found children => hostkeyFromChildren children env.strdupOk

/-! ## Connection-type handler and its iterator resource (np2srv_ch_connection_type_cb)

netconf_server.c:1078-1142.  The result records whether `sr_get_changes_iter`
opened an iterator and whether `sr_free_change_iter` ran before returning.  Each
event carries the outcomes of the collaborator calls its branch would make. -/

/-- One event on a connection-type child node. -/
structure ConnTypeEvent where
  op : SrOp
  schemaName : String
  setConnOk : Bool
  nestedAlloc : Bool
  nestedScan : SrErr
  deriving DecidableEq, Repr

/-- A handler invocation's return code plus iterator bookkeeping. -/
structure HandlerResult where
  rc : SrErr
  iterOpened : Bool
  iterFreed : Bool
  deriving DecidableEq, Repr

/-- The `while` loop of `np2srv_ch_connection_type_cb` (netconf_server.c:1102-1141),
`term` being the code `sr_get_change_tree_next` returns once events run out.
The `assert` on the MODIFIED branch is a release-build no-op and the branch does
not otherwise use the node, so it is not modelled.  Note the two MODIFIED-branch
early returns (nested `asprintf` failure at line 1124-1127, nested periodic
sub-scan failure at line 1128-1132) return without `sr_free_change_iter`. -/
def chConnTypeLoop (events : List ConnTypeEvent) (term : SrErr) : HandlerResult :=
  match events with
  | [] =>
    if term ≠ .notFound then ⟨term, true, true⟩ else ⟨.ok, true, true⟩
  | e :: rest =>
    if e.op = .created then
      if e.schemaName = "persistent" then
        if ¬ e.setConnOk then ⟨.internal, true, true⟩ else chConnTypeLoop rest term
      else if e.schemaName = "periodic" then
        if ¬ e.setConnOk then ⟨.internal, true, true⟩ else chConnTypeLoop rest term
      else chConnTypeLoop rest term
    else if e.op = .modified then
      if ¬ e.nestedAlloc then ⟨.nomem, true, false⟩
      else if e.nestedScan ≠ .ok then ⟨e.nestedScan, true, false⟩
      else chConnTypeLoop rest term
    else chConnTypeLoop rest term

/-- Embedding of `np2srv_ch_connection_type_cb`.  `iterOpenErr` is the failure
code of `sr_get_changes_iter` when it fails (in which case nothing was opened). -/
def np2srv_ch_connection_type_cb (outerAlloc : Bool) (iterOpenErr : Option SrErr)
    (events : List ConnTypeEvent) (term : SrErr) : HandlerResult :=
  if ¬ outerAlloc then ⟨.nomem, false, false⟩
  else
    match iterOpenErr with
    | some e => ⟨e, false, false⟩
    | none => chConnTypeLoop events term

/-! ## Host-key sequence handler (np2srv_endpt_ssh_hostkey_cb)

netconf_server.c:365-407.  The handler issues one live-state mutation per
CREATED/DELETED/MOVED event as it scans and stops at the first failing mutation.
Each event carries the resolved endpoint name, the list entry's key-leaf value
(`node->child`), `prev_val`, and whether the mutation call would succeed. -/

inductive HostkeyMut
  | add (endpt key : String)
  | del (endpt key : String)
  | mov (endpt key prev : String)
  deriving DecidableEq, Repr

structure HostkeyEvent where
  op : SrOp
  endptName : String
  keyName : String
  prevVal : String
  mutOk : Bool
  deriving DecidableEq, Repr

/-- The mutation the loop body issues for one event (`none` for MODIFIED). -/
def hostkeyEventMut (e : HostkeyEvent) : Option HostkeyMut :=
  if e.op = .created then some (.add e.endptName e.keyName)
  else if e.op = .deleted then some (.del e.endptName e.keyName)
  else if e.op = .moved then some (.mov e.endptName e.keyName e.prevVal)
  else none

/-- The scan loop: returns the handler's return code and the successfully applied
mutations in application order. -/
def hostkeyLoop (events : List HostkeyEvent) (term : SrErr)
    (applied : List HostkeyMut) : SrErr × List HostkeyMut :=
  match events with
  | [] => (if term ≠ .notFound then term else .ok, applied)
  | e :: rest =>
    match hostkeyEventMut e with
    | none => hostkeyLoop rest term applied
    | some m =>
      if e.mutOk then hostkeyLoop rest term (applied ++ [m])
      else (.internal, applied)

/-- Embedding of `np2srv_endpt_ssh_hostkey_cb` (the same loop shape serves
`np2srv_ch_endpt_ssh_hostkey_cb`). -/
def np2srv_endpt_ssh_hostkey_cb (iterOpenErr : Option SrErr)
    (events : List HostkeyEvent) (term : SrErr) : SrErr × List HostkeyMut :=
  match iterOpenErr with
  | some e => (e, [])
  | none => hostkeyLoop events term []

/-- Specification-side description of the applied mutations: the successful
mutations of the events strictly before the first failing one. -/
def appliedBeforeFailure (events : List HostkeyEvent) : List HostkeyMut :=
  match events with
  | [] => []
  | e :: rest =>
    match hostkeyEventMut e with
    | none => appliedBeforeFailure rest
    | some m => if e.mutOk then m :: appliedBeforeFailure rest else []

/-- No event's mutation call fails (events without a mutation do not count). -/
def hostkeyAllMutOk (events : List HostkeyEvent) : Bool :=
  events.all (fun e => !(hostkeyEventMut e).isSome || e.mutOk)

/-! ## Lifecycle handlers (np2srv_endpt_ssh_cb, np2srv_ch_client_endpt_ssh_cb,
np2srv_ch_client_cb)

netconf_server.c:190-232, 742-785, 697-740.  Each handler's effect is the trace
of libnetconf2 calls it issues, in order. -/

inductive NcCall
  | addEndpt (name : String)
  | delEndpt (name : String)
  | setAuthMethods (name : String) (mask : Nat)
  | addChClient (name : String)
  | delChClient (name : String)
  | connectChDispatch (name : String)
  | addChEndpt (client endpt : String)
  | delChEndpt (client endpt : String)
  | setChAuthMethods (client endpt : String) (mask : Nat)
  deriving DecidableEq, Repr

/-- One event on an endpoint's own `ssh` node:  resolved endpoint name and the
outcome of the add/del call (`nc_server_ssh_endpt_set_auth_methods`'s return
value is ignored by the source). -/
structure EntityEvent where
  op : SrOp
  name : String
  callOk : Bool
  deriving DecidableEq, Repr

def endptSshLoop (events : List EntityEvent) (term : SrErr) (trace : List NcCall) :
    SrErr × List NcCall :=
  match events with
  | [] => (if term ≠ .notFound then term else .ok, trace)
  | e :: rest =>
    if e.op = .created then
      let trace2 := trace ++ [.addEndpt e.name, .setAuthMethods e.name 0]
      if ¬ e.callOk then (.internal, trace2) else endptSshLoop rest term trace2
    else if e.op = .deleted then
      let trace2 := trace ++ [.delEndpt e.name]
      if ¬ e.callOk then (.internal, trace2) else endptSshLoop rest term trace2
    else endptSshLoop rest term trace

/-- Embedding of `np2srv_endpt_ssh_cb` (CREATED: `nc_server_add_endpt` then
unconditionally `nc_server_ssh_endpt_set_auth_methods(name, 0)`; DELETED:
`nc_server_del_endpt`; `if (rc)` aborts with `SR_ERR_INTERNAL`). -/
def np2srv_endpt_ssh_cb (events : List EntityEvent) (term : SrErr) :
    SrErr × List NcCall :=
  endptSshLoop events term []

/-- One event on a call-home client's own list node, with the outcomes of the
three collaborator calls its branches can make. -/
structure ChClientEvent where
  op : SrOp
  name : String
  addOk : Bool
  dispatchOk : Bool
  delOk : Bool
  deriving DecidableEq, Repr

def chClientLoop (events : List ChClientEvent) (term : SrErr) (trace : List NcCall) :
    SrErr × List NcCall :=
  match events with
  | [] => (if term ≠ .notFound then term else .ok, trace)
  | e :: rest =>
    if e.op = .created then
      if e.addOk then
        let trace2 := trace ++ [.addChClient e.name, .connectChDispatch e.name]
        if ¬ e.dispatchOk then (.internal, trace2) else chClientLoop rest term trace2
      else (.internal, trace ++ [.addChClient e.name])
    else if e.op = .deleted then
      let trace2 := trace ++ [.delChClient e.name]
      if ¬ e.delOk then (.internal, trace2) else chClientLoop rest term trace2
    else chClientLoop rest term trace

/-- Embedding of `np2srv_ch_client_cb` (CREATED: `nc_server_ch_add_client`, and
only on its success `nc_connect_ch_client_dispatch`; DELETED:
`nc_server_ch_del_client`). -/
def np2srv_ch_client_cb (events : List ChClientEvent) (term : SrErr) :
    SrErr × List NcCall :=
  chClientLoop events term []

/-- One event on a call-home client endpoint's own `ssh` node. -/
structure ChEndptEvent where
  op : SrOp
  clientName : String
  endptName : String
  callOk : Bool
  deriving DecidableEq, Repr

def chClientEndptSshLoop (events : List ChEndptEvent) (term : SrErr)
    (trace : List NcCall) : SrErr × List NcCall :=
  match events with
  | [] => (if term ≠ .notFound then term else .ok, trace)
  | e :: rest =>
    if e.op = .created then
      let trace2 := trace ++
        [.addChEndpt e.clientName e.endptName, .setChAuthMethods e.clientName e.endptName 0]
      if ¬ e.callOk then (.internal, trace2) else chClientEndptSshLoop rest term trace2
    else if e.op = .deleted then
      let trace2 := trace ++ [.delChEndpt e.clientName e.endptName]
      if ¬ e.callOk then (.internal, trace2) else chClientEndptSshLoop rest term trace2
    else chClientEndptSshLoop rest term trace

/-- Embedding of `np2srv_ch_client_endpt_ssh_cb` (CREATED:
`nc_server_ch_client_add_endpt` then unconditionally
`nc_server_ssh_ch_client_endpt_set_auth_methods(client, endpt, 0)`). -/
def np2srv_ch_client_endpt_ssh_cb (events : List ChEndptEvent) (term : SrErr) :
    SrErr × List NcCall :=
  chClientEndptSshLoop events term []

end NetconfServer

namespace NetconfServer

/-! # Theorems

Helper lemmas first, then one theorem per specification claim. -/

theorem hostkeyFromChildren_ne_crash (children : List HostkeyChild) (b : Bool) :
    hostkeyFromChildren children b ≠ .crash := by
  unfold hostkeyFromChildren
  split
  · split_ifs <;> simp
  · simp

/-! ## Claim C1 -/

/-- C1: the flag-set reconciler is claimed to map a Created event on the leaf
named `password` to the password bit and a Deleted event on it to clearing that
bit.  The source's `strcmp` chain tests the misspelled literal `"passsword"`
(netconf_server.c:423), so an actual `password` leaf matches no branch and the
mask is returned unchanged, while the dead `"passsword"` branch would have set
the bit.  This theorem evaluates the embedded code at the failing inputs. -/
theorem C1_password_flag_never_toggled :
    np2srv_ssh_update_auth_method ⟨"password", ""⟩ .created 0 = 0 ∧
    np2srv_ssh_update_auth_method ⟨"password", ""⟩ .deleted NC_SSH_AUTH_PASSWORD
      = NC_SSH_AUTH_PASSWORD ∧
    np2srv_ssh_update_auth_method ⟨"passsword", ""⟩ .created 0 = NC_SSH_AUTH_PASSWORD ∧
    updateAuthMethodFold [(⟨"publickey", ""⟩, .created), (⟨"password", ""⟩, .created)] 0
      = NC_SSH_AUTH_PUBLICKEY := by
  decide

/-! ## Claim C2 -/

/-- C2 counterexample: contrary to the claim, a Deleted event on the listen
idle-timeout leaf does not leave the live state holding the schema default — the
handler ignores Deleted entirely (netconf_server.c:177), so the live value stays
whatever it was before (99 stays 99, 100 stays 100), i.e. the result depends on
the pre-deletion value. -/
theorem C2_counterexample_idle_timeout_deleted_ignored :
    np2srv_idle_timeout_cb [⟨.deleted, 0⟩] 99 = 99 ∧
    np2srv_idle_timeout_cb [⟨.deleted, 0⟩] 100 = 100 := by
  decide

/-- C2 (amended): a Deleted event on the SSH auth `max-wait` / `max-attempts`
leaves always leaves the live state holding the schema default (30 resp. 3),
regardless of the value held before and of any earlier events in the change-set;
the listen idle-timeout handler, however, ignores Deleted events, leaving the
live value unchanged. -/
theorem C2_deleted_restores_default_amended :
    (∀ (es : List AuthParamEvent) (st : SshAuthParams) (v : Nat),
      (np2srv_endpt_ssh_keepalives_cb (es ++ [⟨"max-wait", .deleted, v⟩]) st).authTimeout
        = 30) ∧
    (∀ (es : List AuthParamEvent) (st : SshAuthParams) (v : Nat),
      (np2srv_endpt_ssh_keepalives_cb (es ++ [⟨"max-attempts", .deleted, v⟩]) st).authAttempts
        = 3) ∧
    (∀ (es : List IdleTimeoutEvent) (st : Nat) (v : Nat),
      np2srv_idle_timeout_cb (es ++ [⟨.deleted, v⟩]) st = np2srv_idle_timeout_cb es st) := by
  refine ⟨?_, ?_, ?_⟩
  · intro es st v
    unfold np2srv_endpt_ssh_keepalives_cb
    rw [List.foldl_append]
    rfl
  · intro es st v
    unfold np2srv_endpt_ssh_keepalives_cb
    rw [List.foldl_append]
    rfl
  · intro es st v
    unfold np2srv_idle_timeout_cb
    rw [List.foldl_append]
    rfl

/-! ## Claim C10 -/

/-- C10 counterexample: the claim says that from the 100th recognized key of a
single account onward the formatted name no longer fits in `name[6]`; but the
`uint8_t` counter wraps, so the 256th key uses counter value 0 and its name
`"key0"` fits again. -/
theorem C10_counterexample_wraparound : 100 ≤ 256 ∧ keyNameFits 256 := by
  decide

set_option maxRecDepth 8192 in
/-- C10 (amended): the n-th recognized key's name fits inside `name[6]` exactly
when the 8-bit counter value it uses, `n mod 256`, is at most 99; in particular
any account with at most 99 recognized keys is safe, the 100th key overflows the
buffer (`sprintf` writes 7 bytes), and after the counter wraps at the 256th key
the names fit again until the wrapped counter re-exceeds 99. -/
theorem C10_key_name_bounds_amended :
    (∀ n : Nat, keyNameFits n ↔ n % 2 ^ 8 ≤ 99) ∧
    ¬ keyNameFits 100 ∧ authKeyNameBytes (keyIdxOfNth 100) = 7 := by
  refine ⟨?_, by decide, by decide⟩
  intro n
  have hb : ∀ i, i < 2 ^ 8 → (authKeyNameBytes i ≤ 6 ↔ i ≤ 99) := by decide
  have hlt : n % 2 ^ 8 < 2 ^ 8 := Nat.mod_lt _ (by norm_num)
  unfold keyNameFits keyIdxOfNth
  exact hb _ hlt

/-! ## Claim C3 -/

/-- C3: the claim says the key-material resolver's cleanup is well-defined on
every exit path.  It is not: when the subtree fetch fails (`sr_get_subtree`
error), returns no data, or the xpath allocation fails, `data` is still NULL and
the cleanup's parent walk `while (data->parent)` (netconf_server.c:97)
dereferences it.  On the paths where the subtree was actually fetched, the
cleanup is well-defined and the function returns normally. -/
theorem C3_hostkey_cleanup_null_deref :
    np2srv_hostkey_cb ⟨true, true, .noData, true⟩ = .crash ∧
    np2srv_hostkey_cb ⟨true, true, .fetchErr, true⟩ = .crash ∧
    np2srv_hostkey_cb ⟨true, false, .noData, true⟩ = .crash ∧
    (∀ (children : List HostkeyChild) (b : Bool),
      np2srv_hostkey_cb ⟨true, true, .found children, b⟩ ≠ .crash) := by
  refine ⟨by decide, by decide, by decide, ?_⟩
  intro children b
  show hostkeyFromChildren children b ≠ .crash
  exact hostkeyFromChildren_ne_crash children b

/-! ## Claim C7 -/

/-- C7: host-key resolution maps algorithm identity names beginning `rsa` to
RSA and beginning `secp` to ECDSA, and returns an error for any other prefix,
for a missing `algorithm`/`private-key` leaf, and for key-data allocation
failure.  The claim's remaining conjunct — that it also "returns an error" when
the host-key subtree is absent — is falsified by the last conjunct: on that path
the code never returns, it dereferences the null subtree in its cleanup. -/
theorem C7_hostkey_prefix_mapping :
    np2srv_hostkey_cb ⟨true, true,
        .found [⟨"algorithm", "rsa2048", "a"⟩, ⟨"private-key", "", "PRIVKEY"⟩], true⟩
      = .ret 0 (some (.rsa, "PRIVKEY")) ∧
    np2srv_hostkey_cb ⟨true, true,
        .found [⟨"algorithm", "secp256r1", "a"⟩, ⟨"private-key", "", "ECKEY"⟩], true⟩
      = .ret 0 (some (.ecdsa, "ECKEY")) ∧
    np2srv_hostkey_cb ⟨true, true,
        .found [⟨"algorithm", "ed25519", "a"⟩, ⟨"private-key", "", "K"⟩], true⟩
      = .ret (-1) none ∧
    np2srv_hostkey_cb ⟨true, true, .found [⟨"algorithm", "rsa2048", "a"⟩], true⟩
      = .ret (-1) none ∧
    np2srv_hostkey_cb ⟨true, true, .found [⟨"private-key", "", "K"⟩], true⟩
      = .ret (-1) none ∧
    np2srv_hostkey_cb ⟨true, true,
        .found [⟨"algorithm", "rsa2048", "a"⟩, ⟨"private-key", "", "K"⟩], false⟩
      = .ret (-1) none ∧
    np2srv_hostkey_cb ⟨true, true, .noData, true⟩ = .crash := by
  decide

/-! ## Claim C4 -/

/-- C4: the claim says every handler frees its change iterator on every exit
path.  In `np2srv_ch_connection_type_cb` the MODIFIED branch returns without
`sr_free_change_iter` both when the nested xpath allocation fails
(netconf_server.c:1124-1127) and when the nested periodic sub-scan fails
(netconf_server.c:1128-1132): the first two conjuncts show the opened iterator
is not freed there.  The remaining conjuncts show the setter-failure and
normal-exhaustion paths do free it, so the leak is specific to those two
returns. -/
theorem C4_iterator_leak_on_nested_failure :
    np2srv_ch_connection_type_cb true none
        [⟨.modified, "periodic", true, false, .ok⟩] .notFound
      = ⟨.nomem, true, false⟩ ∧
    np2srv_ch_connection_type_cb true none
        [⟨.modified, "periodic", true, true, .internal⟩] .notFound
      = ⟨.internal, true, false⟩ ∧
    np2srv_ch_connection_type_cb true none
        [⟨.created, "persistent", false, true, .ok⟩] .notFound
      = ⟨.internal, true, true⟩ ∧
    np2srv_ch_connection_type_cb true none
        [⟨.created, "periodic", true, true, .ok⟩] .notFound
      = ⟨.ok, true, true⟩ ∧
    np2srv_ch_connection_type_cb true none [] .internal
      = ⟨.internal, true, true⟩ := by
  decide

/-! ## Claim C5 -/

/-- C5: the public-key authentication decision accepts (returns 0) exactly when
the account lookup succeeds, the key-file path allocation succeeds, the import
succeeds and yields the file's first key, and that key equals the offered key
byte-for-byte; the result never depends on keys after the first, and an offered
key matching only a later entry is rejected. -/
theorem C5_pubkey_auth_first_key_only :
    (∀ (env : PubkeyAuthEnv) (offered : String),
      np2srv_pubkey_auth_cb env offered = 0 ↔
        env.pwdLookup.isSome ∧ env.pathAlloc = true ∧ importedPubkey env = some offered) ∧
    (∀ (hd k : String) (ks ks' : List String) (offered : String),
      np2srv_pubkey_auth_cb ⟨some hd, true, k :: ks, true⟩ offered
        = np2srv_pubkey_auth_cb ⟨some hd, true, k :: ks', true⟩ offered) ∧
    (∀ (hd k k2 : String) (ks : List String),
      k ≠ k2 → np2srv_pubkey_auth_cb ⟨some hd, true, k :: k2 :: ks, true⟩ k2 = 1) := by
  refine ⟨?_, ?_, ?_⟩
  · intro env offered
    obtain ⟨pl, pa, fk, io⟩ := env
    cases pl <;> cases pa <;> cases io <;> cases fk <;>
      simp [np2srv_pubkey_auth_cb, importedPubkey]
  · intro hd k ks ks' offered
    rfl
  · intro hd k k2 ks hne
    simp [np2srv_pubkey_auth_cb, importedPubkey, hne]

/-- C5 witness: concrete instantiation of the third conjunct — the offered key
`"B"` matches only the second entry of the file and is rejected. -/
theorem C5_pubkey_auth_witness :
    np2srv_pubkey_auth_cb ⟨some "/root", true, ["A", "B"], true⟩ "B" = 1 :=
  C5_pubkey_auth_first_key_only.2.2 "/root" "A" "B" [] (by decide)

/-! ## Claim C6 -/

/-- C6: parsing the file `"# comment\n\nssh-rsa <base64> user@host\n"` yields
exactly one entry named `key1` with algorithm `ssh-rsa` and the base64 token
verbatim; a file of only comment and blank lines yields zero entries; a missing
file yields zero entries for the account without error; any other file-open
error fails the whole operation. -/
theorem C6_authorized_keys_parsing :
    userAuthKeys (.content ["# comment\n".toList, "\n".toList,
        "ssh-rsa AAAAB3NzaC1yc2EAAAADAQAB user@host\n".toList])
      = .ok [⟨"key1", "ssh-rsa".toList, "AAAAB3NzaC1yc2EAAAADAQAB".toList⟩] ∧
    userAuthKeys (.content ["# a comment\n".toList, "\n".toList, "# more\n".toList,
        "\n".toList])
      = .ok [] ∧
    userAuthKeys .missing = .ok [] ∧
    userAuthKeys .openError = .fail := by
  decide

/-! ## Claim C8 -/

theorem hostkeyLoop_spec (events : List HostkeyEvent) :
    ∀ (term : SrErr) (applied : List HostkeyMut), term ≠ .ok →
      (hostkeyLoop events term applied).2 = applied ++ appliedBeforeFailure events ∧
      ((hostkeyLoop events term applied).1 = .ok ↔
        term = .notFound ∧ hostkeyAllMutOk events = true) ∧
      (hostkeyAllMutOk events = false →
        (hostkeyLoop events term applied).1 = .internal) := by
  induction events with
  | nil =>
    intro term applied hterm
    refine ⟨by simp [hostkeyLoop, appliedBeforeFailure], ?_, by simp [hostkeyAllMutOk]⟩
    by_cases ht : term = .notFound
    · simp [hostkeyLoop, ht, hostkeyAllMutOk]
    · simp [hostkeyLoop, ht, hostkeyAllMutOk, hterm]
  | cons e rest ih =>
    intro term applied hterm
    cases hm : hostkeyEventMut e with
    | none =>
      have h1 := ih term applied hterm
      refine ⟨?_, ?_, ?_⟩
      · simpa [hostkeyLoop, appliedBeforeFailure, hm] using h1.1
      · simpa [hostkeyLoop, hostkeyAllMutOk, hm] using h1.2.1
      · intro hf
        have hf2 : hostkeyAllMutOk rest = false := by
          simpa [hostkeyAllMutOk, hm] using hf
        simpa [hostkeyLoop, hm] using h1.2.2 hf2
    | some m =>
      cases hok : e.mutOk with
      | true =>
        have h1 := ih term (applied ++ [m]) hterm
        refine ⟨?_, ?_, ?_⟩
        · have := h1.1
          simp only [hostkeyLoop, appliedBeforeFailure, hm, hok]
          simpa [List.append_assoc] using this
        · simpa [hostkeyLoop, hostkeyAllMutOk, hm, hok] using h1.2.1
        · intro hf
          have hf2 : hostkeyAllMutOk rest = false := by
            simpa [hostkeyAllMutOk, hm, hok] using hf
          simpa [hostkeyLoop, hm, hok] using h1.2.2 hf2
      | false =>
        refine ⟨?_, ?_, ?_⟩
        · simp [hostkeyLoop, appliedBeforeFailure, hm, hok]
        · simp [hostkeyLoop, hostkeyAllMutOk, hm, hok]
        · intro _
          simp [hostkeyLoop, hm, hok]

/-- C8: the host-key reconciliation handler applies mutations in event order as
it scans, with no rollback: the applied-mutation trace is exactly the successful
mutations of the events strictly before the first failing one (so a failure
leaves events 1..N-1 applied and performs nothing for events after N, and any
failing mutation makes the handler return `SR_ERR_INTERNAL`), and the handler
returns success exactly when the iterator ends with the `SR_ERR_NOT_FOUND`
exhaustion sentinel — as opposed to a hard iterator error — and every issued
mutation succeeded. -/
theorem C8_mutations_in_scan_order_no_rollback (events : List HostkeyEvent)
    (term : SrErr) (hterm : term ≠ .ok) :
    (np2srv_endpt_ssh_hostkey_cb none events term).2 = appliedBeforeFailure events ∧
    ((np2srv_endpt_ssh_hostkey_cb none events term).1 = .ok ↔
      term = .notFound ∧ hostkeyAllMutOk events = true) ∧
    (hostkeyAllMutOk events = false →
      (np2srv_endpt_ssh_hostkey_cb none events term).1 = .internal) := by
  have h := hostkeyLoop_spec events term [] hterm
  simpa [np2srv_endpt_ssh_hostkey_cb] using h

/-- C8 witness: a three-event change-set whose second event's move fails: the
first event's insertion stays applied, the third event's deletion is never
issued, and the handler reports an internal error. -/
theorem C8_witness :
    (np2srv_endpt_ssh_hostkey_cb none
        [⟨.created, "ep1", "k1", "", true⟩, ⟨.moved, "ep1", "k2", "k1", false⟩,
          ⟨.deleted, "ep1", "k3", "", true⟩] .notFound).2
      = [.add "ep1" "k1"] ∧
    (np2srv_endpt_ssh_hostkey_cb none
        [⟨.created, "ep1", "k1", "", true⟩, ⟨.moved, "ep1", "k2", "k1", false⟩,
          ⟨.deleted, "ep1", "k3", "", true⟩] .notFound).1 = .internal := by
  have h := C8_mutations_in_scan_order_no_rollback
    [⟨.created, "ep1", "k1", "", true⟩, ⟨.moved, "ep1", "k2", "k1", false⟩,
      ⟨.deleted, "ep1", "k3", "", true⟩] .notFound (by decide)
  exact ⟨h.1.trans (by decide), h.2.2 (by decide)⟩

/-! ## Claim C9 -/

theorem endptSshLoop_trace_prefix (events : List EntityEvent) :
    ∀ (term : SrErr) (trace : List NcCall),
      ∃ t, (endptSshLoop events term trace).2 = trace ++ t := by
  induction events with
  | nil => intro term trace; exact ⟨[], by simp [endptSshLoop]⟩
  | cons e rest ih =>
    intro term trace
    by_cases h1 : e.op = .created
    · cases h2 : e.callOk with
      | false => exact ⟨[.addEndpt e.name, .setAuthMethods e.name 0], by
          simp [endptSshLoop, h1, h2]⟩
      | true =>
        obtain ⟨t, ht⟩ := ih term (trace ++ [.addEndpt e.name, .setAuthMethods e.name 0])
        exact ⟨[.addEndpt e.name, .setAuthMethods e.name 0] ++ t, by
          simp [endptSshLoop, h1, h2, ht]⟩
    · by_cases h3 : e.op = .deleted
      · cases h2 : e.callOk with
        | false => exact ⟨[.delEndpt e.name], by simp [endptSshLoop, h1, h3, h2]⟩
        | true =>
          obtain ⟨t, ht⟩ := ih term (trace ++ [.delEndpt e.name])
          exact ⟨[.delEndpt e.name] ++ t, by simp [endptSshLoop, h1, h3, h2, ht]⟩
      · obtain ⟨t, ht⟩ := ih term trace
        exact ⟨t, by simp [endptSshLoop, h1, h3, ht]⟩

theorem chClientLoop_trace_prefix (events : List ChClientEvent) :
    ∀ (term : SrErr) (trace : List NcCall),
      ∃ t, (chClientLoop events term trace).2 = trace ++ t := by
  induction events with
  | nil => intro term trace; exact ⟨[], by simp [chClientLoop]⟩
  | cons e rest ih =>
    intro term trace
    by_cases h1 : e.op = .created
    · cases ha : e.addOk with
      | false => exact ⟨[.addChClient e.name], by simp [chClientLoop, h1, ha]⟩
      | true =>
        cases hd : e.dispatchOk with
        | false => exact ⟨[.addChClient e.name, .connectChDispatch e.name], by
            simp [chClientLoop, h1, ha, hd]⟩
        | true =>
          obtain ⟨t, ht⟩ := ih term
            (trace ++ [.addChClient e.name, .connectChDispatch e.name])
          exact ⟨[.addChClient e.name, .connectChDispatch e.name] ++ t, by
            simp [chClientLoop, h1, ha, hd, ht]⟩
    · by_cases h3 : e.op = .deleted
      · cases h2 : e.delOk with
        | false => exact ⟨[.delChClient e.name], by simp [chClientLoop, h1, h3, h2]⟩
        | true =>
          obtain ⟨t, ht⟩ := ih term (trace ++ [.delChClient e.name])
          exact ⟨[.delChClient e.name] ++ t, by simp [chClientLoop, h1, h3, h2, ht]⟩
      · obtain ⟨t, ht⟩ := ih term trace
        exact ⟨t, by simp [chClientLoop, h1, h3, ht]⟩

theorem chClientEndptSshLoop_trace_prefix (events : List ChEndptEvent) :
    ∀ (term : SrErr) (trace : List NcCall),
      ∃ t, (chClientEndptSshLoop events term trace).2 = trace ++ t := by
  induction events with
  | nil => intro term trace; exact ⟨[], by simp [chClientEndptSshLoop]⟩
  | cons e rest ih =>
    intro term trace
    by_cases h1 : e.op = .created
    · cases h2 : e.callOk with
      | false => exact ⟨[.addChEndpt e.clientName e.endptName,
          .setChAuthMethods e.clientName e.endptName 0], by
          simp [chClientEndptSshLoop, h1, h2]⟩
      | true =>
        obtain ⟨t, ht⟩ := ih term (trace ++ [.addChEndpt e.clientName e.endptName,
          .setChAuthMethods e.clientName e.endptName 0])
        exact ⟨[.addChEndpt e.clientName e.endptName,
          .setChAuthMethods e.clientName e.endptName 0] ++ t, by
          simp [chClientEndptSshLoop, h1, h2, ht]⟩
    · by_cases h3 : e.op = .deleted
      · cases h2 : e.callOk with
        | false => exact ⟨[.delChEndpt e.clientName e.endptName], by
            simp [chClientEndptSshLoop, h1, h3, h2]⟩
        | true =>
          obtain ⟨t, ht⟩ := ih term (trace ++ [.delChEndpt e.clientName e.endptName])
          exact ⟨[.delChEndpt e.clientName e.endptName] ++ t, by
            simp [chClientEndptSshLoop, h1, h3, h2, ht]⟩
      · obtain ⟨t, ht⟩ := ih term trace
        exact ⟨t, by simp [chClientEndptSshLoop, h1, h3, ht]⟩

/-- C9: on a Created event for an endpoint's (or call-home client endpoint's)
own SSH node the handler first issues the live-entity creation and then
immediately forces the authentication-method bitmask to 0; on a Created event
for a call-home client's own list node it issues the client addition and, only
when that addition succeeded, the outbound connection dispatch; on a Deleted
event for the entity's own node it issues the live-entity destruction. -/
theorem C9_lifecycle_create_then_deny_all :
    (∀ (name : String) (ok : Bool) (rest : List EntityEvent) (term : SrErr),
      ∃ t, (np2srv_endpt_ssh_cb (⟨.created, name, ok⟩ :: rest) term).2
        = .addEndpt name :: .setAuthMethods name 0 :: t) ∧
    (∀ (c en : String) (ok : Bool) (rest : List ChEndptEvent) (term : SrErr),
      ∃ t, (np2srv_ch_client_endpt_ssh_cb (⟨.created, c, en, ok⟩ :: rest) term).2
        = .addChEndpt c en :: .setChAuthMethods c en 0 :: t) ∧
    (∀ (name : String) (dok delok : Bool) (rest : List ChClientEvent) (term : SrErr),
      ∃ t, (np2srv_ch_client_cb (⟨.created, name, true, dok, delok⟩ :: rest) term).2
        = .addChClient name :: .connectChDispatch name :: t) ∧
    (∀ (name : String) (dok delok : Bool) (rest : List ChClientEvent) (term : SrErr),
      (np2srv_ch_client_cb (⟨.created, name, false, dok, delok⟩ :: rest) term).2
        = [.addChClient name] ∧
      (np2srv_ch_client_cb (⟨.created, name, false, dok, delok⟩ :: rest) term).1
        = .internal) ∧
    (∀ (name : String) (ok : Bool) (rest : List EntityEvent) (term : SrErr),
      ∃ t, (np2srv_endpt_ssh_cb (⟨.deleted, name, ok⟩ :: rest) term).2
        = .delEndpt name :: t) ∧
    (∀ (name : String) (aok dok delok : Bool) (rest : List ChClientEvent) (term : SrErr),
      ∃ t, (np2srv_ch_client_cb (⟨.deleted, name, aok, dok, delok⟩ :: rest) term).2
        = .delChClient name :: t) ∧
    (∀ (c en : String) (ok : Bool) (rest : List ChEndptEvent) (term : SrErr),
      ∃ t, (np2srv_ch_client_endpt_ssh_cb (⟨.deleted, c, en, ok⟩ :: rest) term).2
        = .delChEndpt c en :: t) := by
  refine ⟨?_, ?_, ?_, ?_, ?_, ?_, ?_⟩
  · intro name ok rest term
    cases ok with
    | false => exact ⟨[], by simp [np2srv_endpt_ssh_cb, endptSshLoop]⟩
    | true =>
      obtain ⟨t, ht⟩ :=
        endptSshLoop_trace_prefix rest term [.addEndpt name, .setAuthMethods name 0]
      exact ⟨t, by simp [np2srv_endpt_ssh_cb, endptSshLoop, ht]⟩
  · intro c en ok rest term
    cases ok with
    | false => exact ⟨[], by simp [np2srv_ch_client_endpt_ssh_cb, chClientEndptSshLoop]⟩
    | true =>
      obtain ⟨t, ht⟩ := chClientEndptSshLoop_trace_prefix rest term
        [.addChEndpt c en, .setChAuthMethods c en 0]
      exact ⟨t, by simp [np2srv_ch_client_endpt_ssh_cb, chClientEndptSshLoop, ht]⟩
  · intro name dok delok rest term
    cases dok with
    | false => exact ⟨[], by simp [np2srv_ch_client_cb, chClientLoop]⟩
    | true =>
      obtain ⟨t, ht⟩ := chClientLoop_trace_prefix rest term
        [.addChClient name, .connectChDispatch name]
      exact ⟨t, by simp [np2srv_ch_client_cb, chClientLoop, ht]⟩
  · intro name dok delok rest term
    exact ⟨by simp [np2srv_ch_client_cb, chClientLoop], by
      simp [np2srv_ch_client_cb, chClientLoop]⟩
  · intro name ok rest term
    cases ok with
    | false => exact ⟨[], by simp [np2srv_endpt_ssh_cb, endptSshLoop]⟩
    | true =>
      obtain ⟨t, ht⟩ := endptSshLoop_trace_prefix rest term [.delEndpt name]
      exact ⟨t, by simp [np2srv_endpt_ssh_cb, endptSshLoop, ht]⟩
  · intro name aok dok delok rest term
    cases delok with
    | false => exact ⟨[], by simp [np2srv_ch_client_cb, chClientLoop]⟩
    | true =>
      obtain ⟨t, ht⟩ := chClientLoop_trace_prefix rest term [.delChClient name]
      exact ⟨t, by simp [np2srv_ch_client_cb, chClientLoop, ht]⟩
  · intro c en ok rest term
    cases ok with
    | false => exact ⟨[], by simp [np2srv_ch_client_endpt_ssh_cb, chClientEndptSshLoop]⟩
    | true =>
      obtain ⟨t, ht⟩ := chClientEndptSshLoop_trace_prefix rest term
        [.delChEndpt c en]
      exact ⟨t, by simp [np2srv_ch_client_endpt_ssh_cb, chClientEndptSshLoop, ht]⟩

end NetconfServer
